import Mathlib

/-
Shallow embedding of src/module/rnn_base.py (classes GruEncoder and GruDecoder).

Modelling conventions:
* Real-valued tensor entries are modelled over ℚ.  A (B, T, F) tensor is a
  curried function `Fin B → ℕ → Fin F → ℚ`; the time width is tracked
  separately where it matters (field `out_len` of `EncOut`).
* Token ids are `Fin vocab_size`.
* `nn.GRU` is numeric library code, not code of this repository.  Its per
  sequence computation is modelled by uninterpreted function fields
  (`GruRnn` for the encoder stack, the `rnn` field of `GruDecoder` for the
  one-step decoder stack), while the tensor layout that the repository
  code manipulates is encoded explicitly and follows the PyTorch
  documentation:
    - the final hidden state of a bidirectional GRU stacks the per layer,
      per direction states as h_n.view(num_layers, num_directions, ...),
      that is, raw index i holds (layer i / 2, direction i % 2);
    - the unpacked output concatenates the forward half (features
      0..H-1) and the backward half (features H..2H-1) of the last layer,
      and pad_packed_sequence fills positions at or beyond a sequence
      length with padding_value = PAD_TOKEN_ID;
    - packing truncates each batch row to its true length, so the
      recurrent kernel only sees the first `seq_lengths b` embeddings.
* `nn.functional.log_softmax` is likewise library code; it is passed into
  the decoder constructor as an uninterpreted vocabulary-axis
  normalization function (`log_softmax` argument of `GruDecoder.make`).
* PAD_TOKEN_ID and SOS_TOKEN_ID come from util/tokens.py, which is not
  under src/.  Modelled from the spec: they are reserved vocabulary ids;
  the spec fixes no numeric value, so they are kept as parameters
  (`PAD : ℕ`, `SOS : Fin V`).
* Dropout, devices and gradients have no bearing on the values computed
  here; the boolean `requiresGrad` records the trainability switch that
  `init_embedding_weight` flips.
-/

/-- Model of the state of an `nn.Embedding` module: its weight table and
whether the weight parameter is trainable (`requires_grad`). -/
structure EmbeddingTable (V E : ℕ) where
  weight : Fin V → Fin E → ℚ
  requiresGrad : Bool

/-- Embedding lookup: row `i` of the weight table. -/
def EmbeddingTable.lookup {V E : ℕ} (e : EmbeddingTable V E) (i : Fin V) : Fin E → ℚ :=
  e.weight i

/-- Model of `nn.Embedding(V, E, padding_idx = PAD)` as it leaves the
constructor: some initial weight `w0` whose PAD row has been zeroed, with
a trainable parameter. -/
def EmbeddingTable.freshEmbedding {V E : ℕ} (w0 : Fin V → Fin E → ℚ) (PAD : ℕ) :
    EmbeddingTable V E :=
  { weight := fun i => if i.val = PAD then (fun _ => 0) else w0 i
    requiresGrad := true }

/-- Model of `nn.Linear(I, O)`: weight matrix and bias. -/
structure LinearLayer (I O : ℕ) where
  weight : Fin O → Fin I → ℚ
  bias : Fin O → ℚ

/-- Application of a linear layer to a feature vector: the dot product of
the row with the input (written as a list sum so that it evaluates by
kernel reduction) plus the bias. -/
def LinearLayer.apply {I O : ℕ} (lin : LinearLayer I O) (x : Fin I → ℚ) : Fin O → ℚ :=
  fun o => (((List.finRange I).map (fun i => lin.weight o i * x i)).sum) + lin.bias o

/-- Index of the largest entry of a vector, lowest index first among ties;
models `tensor.topk(1)` on the vocabulary axis. -/
def argmaxIdx {n : ℕ} [NeZero n] (v : Fin n → ℚ) : Fin n :=
  ((List.finRange n).argmax v).getD ⟨0, Nat.pos_of_ne_zero (NeZero.ne n)⟩

/-- Uninterpreted semantics of the encoder GRU stack (`nn.GRU`, library
code) on ONE packed sequence `xs` of embedded tokens:
`outF xs p` / `outB xs p` are the last-layer forward / backward direction
outputs at position `p` (meaningful for `p < xs.length`), and
`finF xs l` / `finB xs l` are the final hidden states of layer `l` in the
forward / backward direction.  A non-bidirectional stack only ever uses
the forward fields. -/
structure GruRnn (E H L : ℕ) where
  outF : List (Fin E → ℚ) → ℕ → Fin H → ℚ
  outB : List (Fin E → ℚ) → ℕ → Fin H → ℚ
  finF : List (Fin E → ℚ) → Fin L → Fin H → ℚ
  finB : List (Fin E → ℚ) → Fin L → Fin H → ℚ

/-- Raw final hidden state tensor of a bidirectional GRU, in the layout
documented for PyTorch: `h_n.view(num_layers, num_directions, ...)`, so
raw index `i` holds the state of layer `i / 2`, direction `i % 2`
(direction 0 forward, 1 backward). -/
def GruRnn.rawBidirHidden {E H L : ℕ} (r : GruRnn E H L) (xs : List (Fin E → ℚ))
    (i : ℕ) : Fin H → ℚ :=
  if h : i / 2 < L then
    (if i % 2 = 0 then r.finF xs ⟨i / 2, h⟩ else r.finB xs ⟨i / 2, h⟩)
  else fun _ => 0

/-- Unpacked (padded) output tensor of a bidirectional GRU before the
direction merge, at batch row of true length `len`, position `p`, feature
`j ∈ [0, 2H)`: features below `H` are the forward direction, features from
`H` on are the backward direction, and every position at or beyond `len`
is filled with `padding_value = PAD` by `pad_packed_sequence`. -/
def GruRnn.rawBidirOutput {E H L : ℕ} (r : GruRnn E H L) (PAD : ℕ) (len : ℕ)
    (xs : List (Fin E → ℚ)) (p j : ℕ) : ℚ :=
  if p < len then
    (if h1 : j < H then r.outF xs p ⟨j, h1⟩
     else if h2 : j - H < H then r.outB xs p ⟨j - H, h2⟩
     else 0)
  else (PAD : ℚ)

/-- Packed embedded input for one batch row: the first `lens b` token ids
of row `b`, embedded.  Models `pack_padded_sequence(embedding, seq_lengths,
batch_first=True)` restricted to row `b`. -/
def embSeq {V E B : ℕ} (tab : EmbeddingTable V E) (x : Fin B → ℕ → Fin V)
    (lens : Fin B → ℕ) (b : Fin B) : List (Fin E → ℚ) :=
  (List.range (lens b)).map (fun p => tab.lookup (x b p))

/-- Result of `GruEncoder.forward`: the padded per-step output tensor
(shape `(B, out_len, H)`; `output b p` is only a real tensor entry for
`p < out_len`) and the final hidden state (shape `(L, B, H)`). -/
structure EncOut (B H L : ℕ) where
  out_len : ℕ
  output : Fin B → ℕ → Fin H → ℚ
  hidden : Fin L → Fin B → Fin H → ℚ

/-- Lengths sorted in descending order, as `pack_padded_sequence` requires. -/
def sortedDesc {B : ℕ} (lens : Fin B → ℕ) : Prop :=
  ∀ i j : Fin B, i ≤ j → lens j ≤ lens i

/-- Precondition under which the pack / unpack cycle of the encoder
succeeds: non-empty batch, every length at least 1 and at most the padded
width, lengths sorted descending. -/
def encGuard (B maxLen : ℕ) (lens : Fin B → ℕ) : Prop :=
  0 < B ∧ (∀ b, 1 ≤ lens b) ∧ (∀ b, lens b ≤ maxLen) ∧ sortedDesc lens

instance (B maxLen : ℕ) (lens : Fin B → ℕ) : Decidable (encGuard B maxLen lens) := by
  unfold encGuard sortedDesc; infer_instance

/-- Model of the `GruEncoder` module state: the bidirectional flag, the
embedding table and the (uninterpreted) GRU stack.  `num_layers = L`,
`hidden_size = H`, `embedding_dim = E`, `vocab_size = V`. -/
structure GruEncoder (V E H L : ℕ) where
  bidirectional : Bool
  embedding_lookup : EmbeddingTable V E
  rnn : GruRnn E H L

/-- Model of `GruEncoder.forward(x, seq_lengths)`.  Embeds the batch,
packs it (truncating each row to its true length), runs the GRU stack,
unpacks to a padded tensor with `padding_value = PAD_TOKEN_ID`, and, when
bidirectional, sums the two feature halves of the output and the first
and second half of the raw hidden-state indices
(`hidden_state[:num_layers] + hidden_state[num_layers:]`). -/
def GruEncoder.forward {V E H L B : ℕ} (enc : GruEncoder V E H L) (maxLen : ℕ)
    (x : Fin B → ℕ → Fin V) (seq_lengths : Fin B → ℕ) (PAD : ℕ) :
    Option (EncOut B H L) :=
  if h : encGuard B maxLen seq_lengths then
    let embedding := embSeq enc.embedding_lookup x seq_lengths
    if enc.bidirectional then
      some { out_len := seq_lengths ⟨0, h.1⟩
             output := fun b p f =>
               enc.rnn.rawBidirOutput PAD (seq_lengths b) (embedding b) p f.val
                 + enc.rnn.rawBidirOutput PAD (seq_lengths b) (embedding b) p (H + f.val)
             hidden := fun l b f =>
               enc.rnn.rawBidirHidden (embedding b) l.val f
                 + enc.rnn.rawBidirHidden (embedding b) (L + l.val) f }
    else
      some { out_len := seq_lengths ⟨0, h.1⟩
             output := fun b p f =>
               if p < seq_lengths b then enc.rnn.outF (embedding b) p f else (PAD : ℚ)
             hidden := fun l b => enc.rnn.finF (embedding b) l }
  else none

/-- Model of `GruEncoder.init_embedding_weight(weight)`: the embedding
weight parameter is replaced wholesale by the supplied matrix with
`requires_grad = False`; no row is re-zeroed. -/
def GruEncoder.init_embedding_weight {V E H L : ℕ} (enc : GruEncoder V E H L)
    (weight : Fin V → Fin E → ℚ) : GruEncoder V E H L :=
  { enc with embedding_lookup := { weight := weight, requiresGrad := false } }

/-- Model of the `GruDecoder` module state.  The `rnn` field is the
uninterpreted one-step semantics of the unidirectional decoder GRU stack
(`nn.GRU`, library code) on one batch element: previous hidden state and
embedded input to last-layer output and new hidden state. -/
structure GruDecoder (V E H L : ℕ) where
  max_seq_len : ℕ
  beam_size : ℕ
  embedding_lookup : EmbeddingTable V E
  rnn : (Fin L → Fin H → ℚ) → (Fin E → ℚ) → (Fin H → ℚ) × (Fin L → Fin H → ℚ)
  linear_transform : LinearLayer H V
  decoder_output_func : Option ((Fin V → ℚ) → Fin V → ℚ)

/-- Model of `GruDecoder.__init__`: builds a fresh embedding table with
zeroed PAD row, stores the GRU stack and the linear projection, and
installs `log_softmax` (an uninterpreted normalization along the
vocabulary axis, since it is library code) as `decoder_output_func`. -/
def GruDecoder.make {V E H L : ℕ} (max_seq_len beam_size PAD : ℕ)
    (w0 : Fin V → Fin E → ℚ)
    (rnn : (Fin L → Fin H → ℚ) → (Fin E → ℚ) → (Fin H → ℚ) × (Fin L → Fin H → ℚ))
    (linear_transform : LinearLayer H V)
    (log_softmax : (Fin V → ℚ) → Fin V → ℚ) : GruDecoder V E H L :=
  { max_seq_len := max_seq_len
    beam_size := beam_size
    embedding_lookup := EmbeddingTable.freshEmbedding w0 PAD
    rnn := rnn
    linear_transform := linear_transform
    decoder_output_func := some log_softmax }

/-- Model of `GruDecoder.step(t, inputs, prev_hidden_state)`: embed the
current input ids, advance the GRU stack one step, project the new
hidden output to vocabulary-size logits, and apply the configured output
normalization (the source guards this with `if self.decoder_output_func:`).
The `t` argument is accepted and unused, as in the source. -/
def GruDecoder.step {V E H L B : ℕ} (d : GruDecoder V E H L) (_t : ℕ)
    (inputs : Fin B → Fin V) (prev_hidden_state : Fin B → Fin L → Fin H → ℚ) :
    (Fin B → Fin V → ℚ) × (Fin B → Fin L → Fin H → ℚ) :=
  let embedding := fun b => d.embedding_lookup.lookup (inputs b)
  let run := fun b => d.rnn (prev_hidden_state b) (embedding b)
  let projected := fun b => d.linear_transform.apply (run b).1
  let outputs :=
    match d.decoder_output_func with
    | some f => fun b => f (projected b)
    | none => projected
  (outputs, fun b => (run b).2)

/-- Model of the `for t in range(self.max_seq_len)` loop of
`GruDecoder.forward`, producing the time-major list of per-step logits
and the prediction list.  In training mode the next input is the column
`tgt_seqs[:, t]` of the target tensor (`none` models the IndexError when
`t` is outside the target width `tgtLen`); in inference mode it is the
argmax of the current step logits, which is also appended to the
predictions. -/
def GruDecoder.loop {V E H L B : ℕ} [NeZero V] (d : GruDecoder V E H L)
    (training : Bool) (tgtLen : ℕ) (tgt_seqs : Fin B → ℕ → Fin V) :
    (fuel : ℕ) → (t : ℕ) → (Fin B → Fin V) → (Fin B → Fin L → Fin H → ℚ) →
    Option (List (Fin B → Fin V → ℚ) × List (Fin B → Fin V))
  | 0, _, _, _ => some ([], [])
  | fuel + 1, t, decoder_input, prev_hidden_state =>
    let res := d.step t decoder_input prev_hidden_state
    if training then
      if t < tgtLen then
        match d.loop training tgtLen tgt_seqs fuel (t + 1) (fun b => tgt_seqs b t) res.2 with
        | some (ls, ps) => some (res.1 :: ls, ps)
        | none => none
      else none
    else
      let pred := fun b => argmaxIdx (res.1 b)
      match d.loop training tgtLen tgt_seqs fuel (t + 1) pred res.2 with
      | some (ls, ps) => some (res.1 :: ls, pred :: ps)
      | none => none

/-- Model of `GruDecoder.forward(encoder_output, encoder_hidden_state,
tgt_seqs, tgt_seq_lengths)`.  The initial input is the SOS sentinel for
every batch element, the initial hidden state is the encoder hidden state
passed in, the loop runs `max_seq_len` times, and the time-major logits
are transposed to batch-major before being returned together with the
prediction list.  `encoder_output` only contributes its batch dimension
(`B`); `tgt_seq_lengths` is accepted and never read, as in the source. -/
def GruDecoder.forward {V E H L B : ℕ} [NeZero V] (d : GruDecoder V E H L)
    (training : Bool) (SOS : Fin V)
    (encoder_output : Fin B → ℕ → Fin H → ℚ)
    (encoder_hidden_state : Fin B → Fin L → Fin H → ℚ)
    (tgtLen : ℕ) (tgt_seqs : Fin B → ℕ → Fin V) (tgt_seq_lengths : Fin B → ℕ) :
    Option ((Fin B → List (Fin V → ℚ)) × List (Fin B → Fin V)) :=
  let initial_input : Fin B → Fin V := fun _ => SOS
  match d.loop training tgtLen tgt_seqs d.max_seq_len 0 initial_input encoder_hidden_state with
  | some (ls, predictions) => some (fun b => ls.map (fun step_logits => step_logits b), predictions)
  | none => none

/-- Model of `GruDecoder.init_embedding_weight(weight)`: identical to the
encoder version. -/
def GruDecoder.init_embedding_weight {V E H L : ℕ} (d : GruDecoder V E H L)
    (weight : Fin V → Fin E → ℚ) : GruDecoder V E H L :=
  { d with embedding_lookup := { weight := weight, requiresGrad := false } }

/-- Teacher-forcing input trace: the input the training-mode loop
consumes at step `t` — the SOS sentinel at `t = 0` and target column
`t - 1` afterwards. -/
def GruDecoder.tfInput {V B : ℕ} (SOS : Fin V) (tgt_seqs : Fin B → ℕ → Fin V) :
    ℕ → Fin B → Fin V
  | 0 => fun _ => SOS
  | t + 1 => fun b => tgt_seqs b t

/-- Teacher-forcing hidden-state trace: the hidden state the
training-mode loop holds when entering step `t`. -/
def GruDecoder.tfHidden {V E H L B : ℕ} (d : GruDecoder V E H L) (SOS : Fin V)
    (tgt_seqs : Fin B → ℕ → Fin V)
    (encoder_hidden_state : Fin B → Fin L → Fin H → ℚ) :
    ℕ → Fin B → Fin L → Fin H → ℚ
  | 0 => encoder_hidden_state
  | t + 1 =>
    (d.step t (GruDecoder.tfInput SOS tgt_seqs t)
      (d.tfHidden SOS tgt_seqs encoder_hidden_state t)).2

/-- Greedy-search trace: the (input, hidden state) pair the
inference-mode loop holds when entering step `t`; the input at step
`t + 1` is the argmax of the step `t` logits. -/
def GruDecoder.greedy {V E H L B : ℕ} [NeZero V] (d : GruDecoder V E H L)
    (SOS : Fin V) (encoder_hidden_state : Fin B → Fin L → Fin H → ℚ) :
    ℕ → (Fin B → Fin V) × (Fin B → Fin L → Fin H → ℚ)
  | 0 => (fun _ => SOS, encoder_hidden_state)
  | t + 1 =>
    (fun b => argmaxIdx ((d.step t (d.greedy SOS encoder_hidden_state t).1
        (d.greedy SOS encoder_hidden_state t).2).1 b),
     (d.step t (d.greedy SOS encoder_hidden_state t).1
        (d.greedy SOS encoder_hidden_state t).2).2)

/-
Concrete instances used by witnesses and counterexamples.  The abstract
GRU kernels are instantiated with simple computable functions; any
concrete behaviour of the library kernel is admissible for claims that
quantify over every model.
-/

/-- Concrete embedding table: token `i` embeds to the constant vector `i`. -/
def cemb : EmbeddingTable 5 1 :=
  { weight := fun i _ => (i.val : ℚ), requiresGrad := true }

/-- Concrete one-step decoder GRU: output is the input embedding, which
also becomes the new hidden state. -/
def cRnnDec : (Fin 1 → Fin 1 → ℚ) → (Fin 1 → ℚ) → (Fin 1 → ℚ) × (Fin 1 → Fin 1 → ℚ) :=
  fun _h x => (x, fun _ => x)

/-- Concrete decoder: `max_seq_len = 2`, projection `v ↦ x₀ - v`, identity
normalization.  Its step output at vocabulary index `w` is
`(consumed token id) - w`, so the logits reveal which token was consumed. -/
def cdec : GruDecoder 5 1 1 1 :=
  { max_seq_len := 2
    beam_size := 1
    embedding_lookup := cemb
    rnn := cRnnDec
    linear_transform := { weight := fun _ _ => 1, bias := fun v => -(v.val : ℚ) }
    decoder_output_func := some (fun v => v) }

/-- Concrete start-of-sequence sentinel. -/
def csos : Fin 5 := 1

/-- Concrete target batch (one row): token 2 at position 0, token 3 at
every later position. -/
def ctgt : Fin 1 → ℕ → Fin 5 := fun _ t => if t = 0 then 2 else 3

/-- Concrete target lengths. -/
def clens : Fin 1 → ℕ := fun _ => 2

/-- Concrete encoder output tensor (only its batch dimension is used). -/
def ceo : Fin 1 → ℕ → Fin 1 → ℚ := fun _ _ _ => 0

/-- Concrete encoder hidden state. -/
def cehid : Fin 1 → Fin 1 → Fin 1 → ℚ := fun _ _ _ => 0

/-- Concrete encoder input batch (one row of token 2). -/
def cx : Fin 1 → ℕ → Fin 5 := fun _ _ => 2

/-- Concrete encoder lengths: one sequence of true length 1 inside width 2. -/
def cxlens : Fin 1 → ℕ := fun _ => 1

/-- Concrete single-layer encoder GRU kernel with distinguishable
direction outputs and finals. -/
def cencRnn : GruRnn 1 1 1 :=
  { outF := fun _ p _ => (p : ℚ) + 1
    outB := fun _ p _ => 10 * ((p : ℚ) + 1)
    finF := fun _ _ _ => 7
    finB := fun _ _ _ => 9 }

/-- Concrete bidirectional single-layer encoder. -/
def cenc : GruEncoder 5 1 1 1 :=
  { bidirectional := true, embedding_lookup := cemb, rnn := cencRnn }

/-- Concrete two-layer encoder GRU kernel whose four final states
(layer, direction) are pairwise distinguishable: forward finals 1 and 10,
backward finals 100 and 1000. -/
def c2Rnn : GruRnn 1 1 2 :=
  { outF := fun _ _ _ => 0
    outB := fun _ _ _ => 0
    finF := fun _ l _ => if l.val = 0 then 1 else 10
    finB := fun _ l _ => if l.val = 0 then 100 else 1000 }

/-- Concrete bidirectional two-layer encoder. -/
def cenc2 : GruEncoder 5 1 1 2 :=
  { bidirectional := true, embedding_lookup := cemb, rnn := c2Rnn }

/-
Helper lemmas shared by the claim theorems.
-/

/-- Training-mode loop characterization: started at the teacher-forcing
trace state for step `t`, the loop returns the per-step logits of the
next `fuel` steps (computed on the trace) and no predictions, provided
the target width covers every visited step. -/
theorem GruDecoder.loop_train_eq {V E H L B : ℕ} [NeZero V] (d : GruDecoder V E H L)
    (SOS : Fin V) (tgt_seqs : Fin B → ℕ → Fin V) (tgtLen : ℕ)
    (encoder_hidden_state : Fin B → Fin L → Fin H → ℚ) :
    ∀ (fuel t : ℕ), t + fuel ≤ tgtLen →
      d.loop true tgtLen tgt_seqs fuel t (GruDecoder.tfInput SOS tgt_seqs t)
          (d.tfHidden SOS tgt_seqs encoder_hidden_state t)
        = some (List.ofFn (fun i : Fin fuel =>
            (d.step (t + i.val) (GruDecoder.tfInput SOS tgt_seqs (t + i.val))
              (d.tfHidden SOS tgt_seqs encoder_hidden_state (t + i.val))).1), []) := by
  intro fuel
  induction fuel with
  | zero =>
    intro t ht
    simp [GruDecoder.loop]
  | succ fuel ih =>
    intro t ht
    have htlt : t < tgtLen := by omega
    have e1 : (fun b => tgt_seqs b t) = GruDecoder.tfInput SOS tgt_seqs (t + 1) := rfl
    have e2 : (d.step t (GruDecoder.tfInput SOS tgt_seqs t)
        (d.tfHidden SOS tgt_seqs encoder_hidden_state t)).2
        = d.tfHidden SOS tgt_seqs encoder_hidden_state (t + 1) := rfl
    simp only [GruDecoder.loop, if_pos htlt, if_true, e1, e2, ih (t + 1) (by omega)]
    refine congrArg some (Prod.ext ?_ rfl)
    rw [List.ofFn_succ]
    refine congrArg₂ List.cons (by simp) ?_
    refine congrArg List.ofFn (funext fun i => ?_)
    simp [Fin.val_succ]
    ring_nf

/-- Inference-mode loop characterization: started at the greedy trace
state for step `t`, the loop returns the per-step logits of the next
`fuel` steps and, as predictions, the argmax inputs the trace feeds to
the following steps.  No target access occurs, so it always succeeds. -/
theorem GruDecoder.loop_infer_eq {V E H L B : ℕ} [NeZero V] (d : GruDecoder V E H L)
    (SOS : Fin V) (tgt_seqs : Fin B → ℕ → Fin V) (tgtLen : ℕ)
    (encoder_hidden_state : Fin B → Fin L → Fin H → ℚ) :
    ∀ (fuel t : ℕ),
      d.loop false tgtLen tgt_seqs fuel t (d.greedy SOS encoder_hidden_state t).1
          (d.greedy SOS encoder_hidden_state t).2
        = some (List.ofFn (fun i : Fin fuel =>
            (d.step (t + i.val) (d.greedy SOS encoder_hidden_state (t + i.val)).1
              (d.greedy SOS encoder_hidden_state (t + i.val)).2).1),
          List.ofFn (fun i : Fin fuel =>
            (d.greedy SOS encoder_hidden_state (t + i.val + 1)).1)) := by
  intro fuel
  induction fuel with
  | zero =>
    intro t
    simp [GruDecoder.loop]
  | succ fuel ih =>
    intro t
    have e1 : (fun b => argmaxIdx ((d.step t (d.greedy SOS encoder_hidden_state t).1
        (d.greedy SOS encoder_hidden_state t).2).1 b))
        = (d.greedy SOS encoder_hidden_state (t + 1)).1 := rfl
    have e2 : (d.step t (d.greedy SOS encoder_hidden_state t).1
        (d.greedy SOS encoder_hidden_state t).2).2
        = (d.greedy SOS encoder_hidden_state (t + 1)).2 := rfl
    simp only [GruDecoder.loop, e1, e2, ih (t + 1)]
    refine congrArg some (congrArg₂ Prod.mk ?_ ?_)
    · rw [List.ofFn_succ]
      refine congrArg₂ List.cons (by first | rfl | simp) ?_
      refine congrArg List.ofFn (funext fun i => ?_)
      first
      | (simp [Fin.val_succ]; ring_nf)
      | ring_nf
      | rfl
    · rw [List.ofFn_succ]
      refine congrArg₂ List.cons (by first | rfl | simp) ?_
      refine congrArg List.ofFn (funext fun i => ?_)
      first
      | (simp [Fin.val_succ]; ring_nf)
      | ring_nf
      | rfl

/-- Closed form of `GruDecoder.forward` in training mode: when the target
width covers all `max_seq_len` steps, the result is the batch-major
transpose of the per-step logits computed on the teacher-forcing trace,
and the prediction list is empty. -/
theorem GruDecoder.forward_train_eq {V E H L B : ℕ} [NeZero V] (d : GruDecoder V E H L)
    (SOS : Fin V) (encoder_output : Fin B → ℕ → Fin H → ℚ)
    (encoder_hidden_state : Fin B → Fin L → Fin H → ℚ)
    (tgtLen : ℕ) (tgt_seqs : Fin B → ℕ → Fin V) (tgt_seq_lengths : Fin B → ℕ)
    (hT : d.max_seq_len ≤ tgtLen) :
    d.forward true SOS encoder_output encoder_hidden_state tgtLen tgt_seqs tgt_seq_lengths
      = some (fun b => List.ofFn (fun i : Fin d.max_seq_len =>
          (d.step i.val (GruDecoder.tfInput SOS tgt_seqs i.val)
            (d.tfHidden SOS tgt_seqs encoder_hidden_state i.val)).1 b), []) := by
  have h0 := d.loop_train_eq SOS tgt_seqs tgtLen encoder_hidden_state d.max_seq_len 0
    (by omega)
  rw [show GruDecoder.tfInput SOS tgt_seqs 0 = (fun _ : Fin B => SOS) from rfl] at h0
  rw [show d.tfHidden SOS tgt_seqs encoder_hidden_state 0 = encoder_hidden_state from rfl] at h0
  simp only [GruDecoder.forward, h0, Nat.zero_add]
  refine congrArg some (congrArg₂ Prod.mk (funext fun b => ?_) rfl)
  rw [List.map_ofFn]
  rfl

/-- Closed form of `GruDecoder.forward` in inference mode: it always
succeeds, the logits are the batch-major transpose of the per-step logits
computed on the greedy trace, and the predictions are the greedy inputs
of steps `1, ..., max_seq_len`. -/
theorem GruDecoder.forward_infer_eq {V E H L B : ℕ} [NeZero V] (d : GruDecoder V E H L)
    (SOS : Fin V) (encoder_output : Fin B → ℕ → Fin H → ℚ)
    (encoder_hidden_state : Fin B → Fin L → Fin H → ℚ)
    (tgtLen : ℕ) (tgt_seqs : Fin B → ℕ → Fin V) (tgt_seq_lengths : Fin B → ℕ) :
    d.forward false SOS encoder_output encoder_hidden_state tgtLen tgt_seqs tgt_seq_lengths
      = some (fun b => List.ofFn (fun i : Fin d.max_seq_len =>
            (d.step i.val (d.greedy SOS encoder_hidden_state i.val).1
              (d.greedy SOS encoder_hidden_state i.val).2).1 b),
          List.ofFn (fun i : Fin d.max_seq_len =>
            (d.greedy SOS encoder_hidden_state (i.val + 1)).1)) := by
  have h0 := d.loop_infer_eq SOS tgt_seqs tgtLen encoder_hidden_state d.max_seq_len 0
  rw [show (d.greedy SOS encoder_hidden_state 0).1 = (fun _ : Fin B => SOS) from rfl] at h0
  rw [show (d.greedy SOS encoder_hidden_state 0).2 = encoder_hidden_state from rfl] at h0
  simp only [GruDecoder.forward, h0, Nat.zero_add]
  refine congrArg some (congrArg₂ Prod.mk (funext fun b => ?_) rfl)
  rw [List.map_ofFn]
  rfl

/-- Two decoders with pointwise equal step functions run their loops to
the same result. -/
theorem GruDecoder.loop_step_congr {V E H L B : ℕ} [NeZero V]
    (d₁ d₂ : GruDecoder V E H L)
    (hstep : ∀ (t : ℕ) (inputs : Fin B → Fin V)
      (prev : Fin B → Fin L → Fin H → ℚ), d₁.step t inputs prev = d₂.step t inputs prev)
    (training : Bool) (tgtLen : ℕ) (tgt_seqs : Fin B → ℕ → Fin V) :
    ∀ (fuel t : ℕ) (inp : Fin B → Fin V) (hid : Fin B → Fin L → Fin H → ℚ),
      d₁.loop training tgtLen tgt_seqs fuel t inp hid
        = d₂.loop training tgtLen tgt_seqs fuel t inp hid := by
  intro fuel
  induction fuel with
  | zero => intro t inp hid; rfl
  | succ fuel ih =>
    intro t inp hid
    simp only [GruDecoder.loop, hstep, ih]

/-- Reduction of `GruEncoder.forward` for a bidirectional encoder when
the pack precondition holds. -/
theorem GruEncoder.forward_bidir_eq {V E H L B : ℕ} (enc : GruEncoder V E H L)
    (maxLen : ℕ) (x : Fin B → ℕ → Fin V) (seq_lengths : Fin B → ℕ) (PAD : ℕ)
    (hg : encGuard B maxLen seq_lengths) (hb : enc.bidirectional = true) :
    enc.forward maxLen x seq_lengths PAD
      = some { out_len := seq_lengths ⟨0, hg.1⟩
               output := fun b p f =>
                 enc.rnn.rawBidirOutput PAD (seq_lengths b)
                     (embSeq enc.embedding_lookup x seq_lengths b) p f.val
                   + enc.rnn.rawBidirOutput PAD (seq_lengths b)
                     (embSeq enc.embedding_lookup x seq_lengths b) p (H + f.val)
               hidden := fun l b f =>
                 enc.rnn.rawBidirHidden (embSeq enc.embedding_lookup x seq_lengths b) l.val f
                   + enc.rnn.rawBidirHidden (embSeq enc.embedding_lookup x seq_lengths b)
                     (L + l.val) f } := by
  unfold GruEncoder.forward
  rw [dif_pos hg, hb]
  rfl

/-- Reduction of `GruEncoder.forward` for a non-bidirectional encoder
when the pack precondition holds. -/
theorem GruEncoder.forward_nonbidir_eq {V E H L B : ℕ} (enc : GruEncoder V E H L)
    (maxLen : ℕ) (x : Fin B → ℕ → Fin V) (seq_lengths : Fin B → ℕ) (PAD : ℕ)
    (hg : encGuard B maxLen seq_lengths) (hb : enc.bidirectional = false) :
    enc.forward maxLen x seq_lengths PAD
      = some { out_len := seq_lengths ⟨0, hg.1⟩
               output := fun b p f =>
                 if p < seq_lengths b
                 then enc.rnn.outF (embSeq enc.embedding_lookup x seq_lengths b) p f
                 else (PAD : ℚ)
               hidden := fun l b =>
                 enc.rnn.finF (embSeq enc.embedding_lookup x seq_lengths b) l } := by
  unfold GruEncoder.forward
  rw [dif_pos hg, hb]
  rfl

/-
Claim theorems.
-/

/-- C10: after `init_embedding_weight(W)` on the encoder or the decoder,
the embedding lookup at every token id `i` returns exactly `W[i]` — in
particular at PAD_TOKEN_ID, whose row is taken from `W` as supplied and
is not re-zeroed by the replacement — and the replaced table is
non-trainable (`requires_grad = False`). -/
theorem C10_init_embedding_weight_replaces_table {V E H L : ℕ}
    (enc : GruEncoder V E H L) (d : GruDecoder V E H L)
    (W : Fin V → Fin E → ℚ) (i : Fin V) :
    (enc.init_embedding_weight W).embedding_lookup.lookup i = W i
    ∧ (enc.init_embedding_weight W).embedding_lookup.requiresGrad = false
    ∧ (d.init_embedding_weight W).embedding_lookup.lookup i = W i
    ∧ (d.init_embedding_weight W).embedding_lookup.requiresGrad = false :=
  ⟨rfl, rfl, rfl, rfl⟩

/-- C7: inference-mode `forward` is a pure function of the model state
and the inputs — two invocations on equal weights and equal inputs
produce identical logits and identical prediction lists. -/
theorem C7_inference_forward_deterministic {V E H L B : ℕ} [NeZero V]
    (d₁ d₂ : GruDecoder V E H L) (SOS₁ SOS₂ : Fin V)
    (eo₁ eo₂ : Fin B → ℕ → Fin H → ℚ)
    (eh₁ eh₂ : Fin B → Fin L → Fin H → ℚ)
    (tgtLen₁ tgtLen₂ : ℕ) (tgt₁ tgt₂ : Fin B → ℕ → Fin V)
    (tls₁ tls₂ : Fin B → ℕ)
    (hd : d₁ = d₂) (hS : SOS₁ = SOS₂) (heo : eo₁ = eo₂) (heh : eh₁ = eh₂)
    (htl : tgtLen₁ = tgtLen₂) (htg : tgt₁ = tgt₂) (hls : tls₁ = tls₂) :
    d₁.forward false SOS₁ eo₁ eh₁ tgtLen₁ tgt₁ tls₁
      = d₂.forward false SOS₂ eo₂ eh₂ tgtLen₂ tgt₂ tls₂ := by
  subst hd hS heo heh htl htg hls
  rfl

/-- Witness for C7 at a concrete decoder and batch. -/
theorem C7_witness :
    cdec = cdec
    ∧ GruDecoder.forward cdec false csos ceo cehid 2 ctgt clens
      = GruDecoder.forward cdec false csos ceo cehid 2 ctgt clens :=
  ⟨rfl, C7_inference_forward_deterministic cdec cdec csos csos ceo ceo cehid cehid
    2 2 ctgt ctgt clens clens rfl rfl rfl rfl rfl rfl rfl⟩

/-- C8: `beam_size` noninterference — a decoder that differs only in the
`beam_size` configuration value has the same `step` function and the same
`forward` results in either mode; `beam_size` is stored but never
consulted by the generation algorithm. -/
theorem C8_beam_size_noninterference {V E H L B : ℕ} [NeZero V]
    (d : GruDecoder V E H L) (k : ℕ) (training : Bool) (SOS : Fin V)
    (encoder_output : Fin B → ℕ → Fin H → ℚ)
    (encoder_hidden_state : Fin B → Fin L → Fin H → ℚ)
    (tgtLen : ℕ) (tgt_seqs : Fin B → ℕ → Fin V) (tgt_seq_lengths : Fin B → ℕ)
    (t : ℕ) (inputs : Fin B → Fin V) (prev : Fin B → Fin L → Fin H → ℚ) :
    ({ d with beam_size := k } : GruDecoder V E H L).beam_size = k
    ∧ ({ d with beam_size := k } : GruDecoder V E H L).step t inputs prev
      = d.step t inputs prev
    ∧ ({ d with beam_size := k } : GruDecoder V E H L).forward training SOS
        encoder_output encoder_hidden_state tgtLen tgt_seqs tgt_seq_lengths
      = d.forward training SOS encoder_output encoder_hidden_state tgtLen
        tgt_seqs tgt_seq_lengths := by
  refine ⟨rfl, rfl, ?_⟩
  have h := GruDecoder.loop_step_congr ({ d with beam_size := k }) d
    (fun _ _ _ => rfl) training tgtLen tgt_seqs
    d.max_seq_len 0 (fun _ => SOS) encoder_hidden_state
  simp only [GruDecoder.forward]
  rw [show ({ d with beam_size := k } : GruDecoder V E H L).max_seq_len
      = d.max_seq_len from rfl, h]

/-- C6: for a constructed decoder, in both modes, `forward` starts the
loop with the SOS sentinel as input for every batch element and the
passed-in encoder hidden state as initial recurrent state; each `step`
embeds the current input ids, advances the GRU stack one step, projects
to vocabulary-size logits, and applies the installed log-softmax
normalization along the vocabulary axis. -/
theorem C6_decoder_recurrence_structure {V E H L B : ℕ} [NeZero V]
    (max_seq_len beam_size PAD : ℕ) (w0 : Fin V → Fin E → ℚ)
    (rnn : (Fin L → Fin H → ℚ) → (Fin E → ℚ) → (Fin H → ℚ) × (Fin L → Fin H → ℚ))
    (linear_transform : LinearLayer H V)
    (log_softmax : (Fin V → ℚ) → Fin V → ℚ)
    (training : Bool) (SOS : Fin V)
    (encoder_output : Fin B → ℕ → Fin H → ℚ)
    (encoder_hidden_state : Fin B → Fin L → Fin H → ℚ)
    (tgtLen : ℕ) (tgt_seqs : Fin B → ℕ → Fin V) (tgt_seq_lengths : Fin B → ℕ)
    (t : ℕ) (inputs : Fin B → Fin V) (prev : Fin B → Fin L → Fin H → ℚ) :
    (GruDecoder.make max_seq_len beam_size PAD w0 rnn linear_transform
        log_softmax).forward training SOS encoder_output encoder_hidden_state
        tgtLen tgt_seqs tgt_seq_lengths
      = Option.map
          (fun r => (fun b => r.1.map (fun step_logits => step_logits b), r.2))
          ((GruDecoder.make max_seq_len beam_size PAD w0 rnn linear_transform
              log_softmax).loop training tgtLen tgt_seqs
            (GruDecoder.make max_seq_len beam_size PAD w0 rnn linear_transform
              log_softmax).max_seq_len 0 (fun _ => SOS) encoder_hidden_state)
    ∧ GruDecoder.tfInput SOS tgt_seqs 0 = (fun _ => SOS)
    ∧ (GruDecoder.make max_seq_len beam_size PAD w0 rnn linear_transform
        log_softmax).greedy SOS encoder_hidden_state 0
      = (fun _ => SOS, encoder_hidden_state)
    ∧ (GruDecoder.make max_seq_len beam_size PAD w0 rnn linear_transform
        log_softmax).step t inputs prev
      = (fun b => log_softmax (linear_transform.apply
            ((rnn (prev b)
              ((EmbeddingTable.freshEmbedding w0 PAD).lookup (inputs b)))).1),
         fun b => (rnn (prev b)
            ((EmbeddingTable.freshEmbedding w0 PAD).lookup (inputs b))).2) := by
  refine ⟨?_, rfl, rfl, rfl⟩
  simp only [GruDecoder.forward]
  cases hl : (GruDecoder.make max_seq_len beam_size PAD w0 rnn linear_transform
      log_softmax).loop training tgtLen tgt_seqs
      (GruDecoder.make max_seq_len beam_size PAD w0 rnn linear_transform
        log_softmax).max_seq_len 0 (fun _ => SOS) encoder_hidden_state with
  | none => rfl
  | some r =>
    obtain ⟨ls, ps⟩ := r
    rfl

/-- C4: in inference mode, `forward` always returns a prediction list of
exactly `max_seq_len` entries; each entry is the batch of token ids given
by the argmax along the vocabulary axis of that step logits; and the
greedy trace feeds the argmax token of step `t` as the input of step
`t + 1`. -/
theorem C4_greedy_prediction_list {V E H L B : ℕ} [NeZero V] (d : GruDecoder V E H L)
    (SOS : Fin V) (encoder_output : Fin B → ℕ → Fin H → ℚ)
    (encoder_hidden_state : Fin B → Fin L → Fin H → ℚ)
    (tgtLen : ℕ) (tgt_seqs : Fin B → ℕ → Fin V) (tgt_seq_lengths : Fin B → ℕ) :
    ∃ logits preds,
      d.forward false SOS encoder_output encoder_hidden_state tgtLen tgt_seqs
        tgt_seq_lengths = some (logits, preds)
      ∧ preds.length = d.max_seq_len
      ∧ (∀ b, (logits b).length = d.max_seq_len)
      ∧ (∀ t : ℕ, t < d.max_seq_len → ∀ b : Fin B,
          (preds.getD t (fun _ => SOS)) b
            = argmaxIdx ((logits b).getD t (fun _ => 0)))
      ∧ (∀ t : ℕ, (d.greedy SOS encoder_hidden_state (t + 1)).1
          = fun b => argmaxIdx ((d.step t (d.greedy SOS encoder_hidden_state t).1
              (d.greedy SOS encoder_hidden_state t).2).1 b)) := by
  refine ⟨_, _, d.forward_infer_eq SOS encoder_output encoder_hidden_state tgtLen
    tgt_seqs tgt_seq_lengths, by simp, fun b => by simp, ?_, fun t => rfl⟩
  intro t ht b
  rw [List.getD_eq_getElem _ _ (by simpa using ht),
    List.getD_eq_getElem _ _ (by simpa using ht)]
  simp only [List.getElem_ofFn]
  rfl

/-- Witness for C4 at a concrete decoder and batch. -/
theorem C4_witness :
    (0 : ℕ) < cdec.max_seq_len
    ∧ (∃ logits preds,
        GruDecoder.forward cdec false csos ceo cehid 2 ctgt clens
          = some (logits, preds)
        ∧ preds.length = cdec.max_seq_len
        ∧ (∀ b, (logits b).length = cdec.max_seq_len)
        ∧ (∀ t : ℕ, t < cdec.max_seq_len → ∀ b : Fin 1,
            (preds.getD t (fun _ => csos)) b
              = argmaxIdx ((logits b).getD t (fun _ => 0)))
        ∧ (∀ t : ℕ, (cdec.greedy csos cehid (t + 1)).1
            = fun b => argmaxIdx ((cdec.step t (cdec.greedy csos cehid t).1
                (cdec.greedy csos cehid t).2).1 b))) :=
  ⟨by decide, C4_greedy_prediction_list cdec csos ceo cehid 2 ctgt clens⟩

/-- C1 (amended): in training mode the input the decoder consumes at step
`t` is the SOS sentinel at `t = 0` and the ground-truth target token at
position `t - 1` (not `t`) for `t ≥ 1`, independent of the decoder
predictions; `forward` computes its logits on exactly this
teacher-forcing input trace. -/
theorem C1_teacher_forcing_inputs {V E H L B : ℕ} [NeZero V] (d : GruDecoder V E H L)
    (SOS : Fin V) (encoder_output : Fin B → ℕ → Fin H → ℚ)
    (encoder_hidden_state : Fin B → Fin L → Fin H → ℚ)
    (tgtLen : ℕ) (tgt_seqs : Fin B → ℕ → Fin V) (tgt_seq_lengths : Fin B → ℕ)
    (hT : d.max_seq_len ≤ tgtLen) :
    GruDecoder.tfInput SOS tgt_seqs 0 = (fun _ => SOS)
    ∧ (∀ t : ℕ, GruDecoder.tfInput SOS tgt_seqs (t + 1) = fun b => tgt_seqs b t)
    ∧ d.forward true SOS encoder_output encoder_hidden_state tgtLen tgt_seqs
        tgt_seq_lengths
      = some (fun b => List.ofFn (fun i : Fin d.max_seq_len =>
          (d.step i.val (GruDecoder.tfInput SOS tgt_seqs i.val)
            (d.tfHidden SOS tgt_seqs encoder_hidden_state i.val)).1 b), []) :=
  ⟨rfl, fun _ => rfl,
    d.forward_train_eq SOS encoder_output encoder_hidden_state tgtLen tgt_seqs
      tgt_seq_lengths hT⟩

/-- Witness for the amended C1 at a concrete decoder and batch. -/
theorem C1_witness :
    cdec.max_seq_len ≤ 2
    ∧ (GruDecoder.tfInput csos ctgt 0 = (fun _ => csos)
      ∧ (∀ t : ℕ, GruDecoder.tfInput csos ctgt (t + 1) = fun b => ctgt b t)
      ∧ GruDecoder.forward cdec true csos ceo cehid 2 ctgt clens
        = some (fun b => List.ofFn (fun i : Fin cdec.max_seq_len =>
            (cdec.step i.val (GruDecoder.tfInput csos ctgt i.val)
              (cdec.tfHidden csos ctgt cehid i.val)).1 b), [])) :=
  ⟨by decide, C1_teacher_forcing_inputs cdec csos ceo cehid 2 ctgt clens (by decide)⟩

/-- Counterexample to C1 as stated: at step 1 the concrete decoder
consumes target position 0 (token 2), not target position 1 (token 3);
accordingly the step-1 logits returned by `forward` are those of consuming
token 2 (value 0 at vocabulary index 2), not those of consuming token 3
(value 1 at vocabulary index 2). -/
theorem C1_counterexample :
    GruDecoder.tfInput csos ctgt 1 0 = ctgt 0 0
    ∧ ctgt 0 0 = (2 : Fin 5)
    ∧ ctgt 0 1 = (3 : Fin 5)
    ∧ GruDecoder.tfInput csos ctgt 1 0 ≠ ctgt 0 1
    ∧ ((GruDecoder.forward cdec true csos ceo cehid 2 ctgt clens).map
        (fun r => (r.1 0).getD 1 (fun _ => 0) (2 : Fin 5))) = some 0
    ∧ ((cdec.step 1 (fun _ => ctgt 0 1) (cdec.tfHidden csos ctgt cehid 1)).1 0
        (2 : Fin 5)) = 1
    ∧ (0 : ℚ) ≠ 1 := by
  with_unfolding_all decide

/-- C3 (amended): in training mode, when the target tensor width is at
least `max_seq_len`, the returned logits have time dimension exactly
`max_seq_len` (the loop runs all `max_seq_len` iterations, there is no
early stop) and the returned prediction list is empty. -/
theorem C3_training_logits_shape {V E H L B : ℕ} [NeZero V] (d : GruDecoder V E H L)
    (SOS : Fin V) (encoder_output : Fin B → ℕ → Fin H → ℚ)
    (encoder_hidden_state : Fin B → Fin L → Fin H → ℚ)
    (tgtLen : ℕ) (tgt_seqs : Fin B → ℕ → Fin V) (tgt_seq_lengths : Fin B → ℕ)
    (hT : d.max_seq_len ≤ tgtLen) :
    ∃ logits,
      d.forward true SOS encoder_output encoder_hidden_state tgtLen tgt_seqs
        tgt_seq_lengths = some (logits, [])
      ∧ (∀ b, (logits b).length = d.max_seq_len) :=
  ⟨_, d.forward_train_eq SOS encoder_output encoder_hidden_state tgtLen tgt_seqs
      tgt_seq_lengths hT, fun b => by simp⟩

/-- Witness for the amended C3 at a concrete decoder and batch. -/
theorem C3_witness :
    cdec.max_seq_len ≤ 2
    ∧ (∃ logits,
        GruDecoder.forward cdec true csos ceo cehid 2 ctgt clens
          = some (logits, [])
        ∧ (∀ b, (logits b).length = cdec.max_seq_len)) :=
  ⟨by decide, C3_training_logits_shape cdec csos ceo cehid 2 ctgt clens (by decide)⟩

/-- Counterexample to C3 as stated: with a target tensor of width 0 and
`max_seq_len = 2`, the training-mode loop indexes the target out of
bounds at step 0 (an IndexError in the source), so no logits tensor is
returned at all. -/
theorem C3_counterexample :
    GruDecoder.forward cdec true csos ceo cehid 0 ctgt clens = none := by
  with_unfolding_all decide

/-- C2 (amended): for a bidirectional encoder the returned final hidden
state has `num_layers` states, and state `l` is the sum of the raw final
hidden states at indices `l` and `num_layers + l`
(`hidden_state[:num_layers] + hidden_state[num_layers:]`).  Under the
PyTorch layout (layer-major, direction-interleaved) this equals the sum
of the per-layer forward and backward direction states exactly when
`num_layers = 1`; for more layers it mixes layers, not directions. -/
theorem C2_bidirectional_hidden_merge {V E H L B : ℕ} (enc : GruEncoder V E H L)
    (maxLen : ℕ) (x : Fin B → ℕ → Fin V) (seq_lengths : Fin B → ℕ) (PAD : ℕ)
    (hb : enc.bidirectional = true) (hg : encGuard B maxLen seq_lengths) :
    ∃ r, enc.forward maxLen x seq_lengths PAD = some r
      ∧ (∀ (l : Fin L) (b : Fin B) (f : Fin H),
          r.hidden l b f
            = enc.rnn.rawBidirHidden (embSeq enc.embedding_lookup x seq_lengths b)
                l.val f
              + enc.rnn.rawBidirHidden (embSeq enc.embedding_lookup x seq_lengths b)
                (L + l.val) f)
      ∧ (L = 1 → ∀ (l : Fin L) (b : Fin B) (f : Fin H),
          r.hidden l b f
            = enc.rnn.finF (embSeq enc.embedding_lookup x seq_lengths b) l f
              + enc.rnn.finB (embSeq enc.embedding_lookup x seq_lengths b) l f) := by
  refine ⟨_, enc.forward_bidir_eq maxLen x seq_lengths PAD hg hb,
    fun l b f => rfl, ?_⟩
  intro hL l b f
  subst hL
  have hl : l = ⟨0, by omega⟩ := Fin.ext (by omega)
  subst hl
  show GruRnn.rawBidirHidden _ _ 0 f + GruRnn.rawBidirHidden _ _ (1 + 0) f = _
  norm_num [GruRnn.rawBidirHidden]

/-- Witness for the amended C2 at a concrete single-layer bidirectional
encoder. -/
theorem C2_witness :
    cenc.bidirectional = true
    ∧ encGuard 1 2 cxlens
    ∧ (∃ r, GruEncoder.forward cenc 2 cx cxlens 1 = some r
      ∧ (∀ (l : Fin 1) (b : Fin 1) (f : Fin 1),
          r.hidden l b f
            = cenc.rnn.rawBidirHidden (embSeq cenc.embedding_lookup cx cxlens b)
                l.val f
              + cenc.rnn.rawBidirHidden (embSeq cenc.embedding_lookup cx cxlens b)
                (1 + l.val) f)
      ∧ (1 = 1 → ∀ (l : Fin 1) (b : Fin 1) (f : Fin 1),
          r.hidden l b f
            = cenc.rnn.finF (embSeq cenc.embedding_lookup cx cxlens b) l f
              + cenc.rnn.finB (embSeq cenc.embedding_lookup cx cxlens b) l f)) :=
  ⟨rfl, by decide, C2_bidirectional_hidden_merge cenc 2 cx cxlens 1 rfl (by decide)⟩

/-- Counterexample to C2 as stated: for the concrete two-layer
bidirectional encoder, the merged state of layer 0 is 11 (forward final
of layer 0 plus forward final of layer 1), while the sum of the forward
and backward finals of layer 0 is 101. -/
theorem C2_counterexample :
    ((GruEncoder.forward cenc2 2 cx cxlens 0).map (fun r => r.hidden 0 0 0))
      = some 11
    ∧ c2Rnn.finF (embSeq cemb cx cxlens 0) 0 0
        + c2Rnn.finB (embSeq cemb cx cxlens 0) 0 0 = 101
    ∧ (11 : ℚ) ≠ 101 := by
  with_unfolding_all decide

/-- C5: for a bidirectional encoder, `forward` returns tensors of the
same shape as the non-bidirectional encoder with the same parameters
(the same `Option (EncOut B H L)` type and the same time width), and
every merged output value is the sum of the corresponding entries of the
unmerged forward half (features below `H`) and backward half (features
from `H` on). -/
theorem C5_bidirectional_output_merge {V E H L B : ℕ} (enc : GruEncoder V E H L)
    (maxLen : ℕ) (x : Fin B → ℕ → Fin V) (seq_lengths : Fin B → ℕ) (PAD : ℕ)
    (hb : enc.bidirectional = true) (hg : encGuard B maxLen seq_lengths) :
    ∃ (r r2 : EncOut B H L),
      enc.forward maxLen x seq_lengths PAD = some r
      ∧ ({ enc with bidirectional := false } : GruEncoder V E H L).forward
          maxLen x seq_lengths PAD = some r2
      ∧ r.out_len = r2.out_len
      ∧ (∀ (b : Fin B) (p : ℕ) (f : Fin H),
          r.output b p f
            = enc.rnn.rawBidirOutput PAD (seq_lengths b)
                (embSeq enc.embedding_lookup x seq_lengths b) p f.val
              + enc.rnn.rawBidirOutput PAD (seq_lengths b)
                (embSeq enc.embedding_lookup x seq_lengths b) p (H + f.val)) :=
  ⟨_, _, enc.forward_bidir_eq maxLen x seq_lengths PAD hg hb,
    GruEncoder.forward_nonbidir_eq ({ enc with bidirectional := false })
      maxLen x seq_lengths PAD hg rfl,
    rfl, fun b p f => rfl⟩

/-- Witness for C5 at a concrete bidirectional encoder. -/
theorem C5_witness :
    cenc.bidirectional = true
    ∧ encGuard 1 2 cxlens
    ∧ (∃ (r r2 : EncOut 1 1 1),
        GruEncoder.forward cenc 2 cx cxlens 1 = some r
        ∧ ({ cenc with bidirectional := false } : GruEncoder 5 1 1 1).forward
            2 cx cxlens 1 = some r2
        ∧ r.out_len = r2.out_len
        ∧ (∀ (b : Fin 1) (p : ℕ) (f : Fin 1),
            r.output b p f
              = cenc.rnn.rawBidirOutput 1 (cxlens b)
                  (embSeq cenc.embedding_lookup cx cxlens b) p f.val
                + cenc.rnn.rawBidirOutput 1 (cxlens b)
                  (embSeq cenc.embedding_lookup cx cxlens b) p (1 + f.val))) :=
  ⟨rfl, by decide, C5_bidirectional_output_merge cenc 2 cx cxlens 1 rfl (by decide)⟩

/-- C9 (amended): for a bidirectional encoder, every output position at
or beyond a sequence true length holds the sum of the two direction
padding fills, `PAD + PAD`; this equals the padding value itself exactly
when `PAD = 0` (the spec leaves the numeric value of PAD_TOKEN_ID open). -/
theorem C9_bidirectional_padding_fill {V E H L B : ℕ} (enc : GruEncoder V E H L)
    (maxLen : ℕ) (x : Fin B → ℕ → Fin V) (seq_lengths : Fin B → ℕ) (PAD : ℕ)
    (hb : enc.bidirectional = true) (hg : encGuard B maxLen seq_lengths) :
    ∃ r, enc.forward maxLen x seq_lengths PAD = some r
      ∧ (∀ (b : Fin B) (p : ℕ), seq_lengths b ≤ p → ∀ f : Fin H,
          r.output b p f = (PAD : ℚ) + (PAD : ℚ))
      ∧ ((PAD : ℚ) + (PAD : ℚ) = (PAD : ℚ) ↔ PAD = 0) := by
  refine ⟨_, enc.forward_bidir_eq maxLen x seq_lengths PAD hg hb, ?_, ?_⟩
  · intro b p hp f
    show GruRnn.rawBidirOutput _ _ _ _ _ _ + GruRnn.rawBidirOutput _ _ _ _ _ _ = _
    unfold GruRnn.rawBidirOutput
    rw [if_neg (by omega), if_neg (by omega)]
  · constructor
    · intro h
      have h2 : (PAD : ℚ) = 0 := by linarith
      exact_mod_cast h2
    · intro h
      subst h
      norm_num

/-- Witness for the amended C9 at a concrete bidirectional encoder with
`PAD = 1`. -/
theorem C9_witness :
    cenc.bidirectional = true
    ∧ encGuard 1 2 cxlens
    ∧ (∃ r, GruEncoder.forward cenc 2 cx cxlens 1 = some r
      ∧ (∀ (b : Fin 1) (p : ℕ), cxlens b ≤ p → ∀ f : Fin 1,
          r.output b p f = ((1 : ℕ) : ℚ) + ((1 : ℕ) : ℚ))
      ∧ (((1 : ℕ) : ℚ) + ((1 : ℕ) : ℚ) = ((1 : ℕ) : ℚ) ↔ (1 : ℕ) = 0)) :=
  ⟨rfl, by decide, C9_bidirectional_padding_fill cenc 2 cx cxlens 1 rfl (by decide)⟩

/-- Counterexample to C9 as stated: with `PAD_TOKEN_ID = 0`, the output
of the concrete bidirectional encoder at a padded position equals the
padding value itself (0 + 0 = 0), so "not the padding value itself"
fails. -/
theorem C9_counterexample :
    ((GruEncoder.forward cenc 2 cx cxlens 0).map (fun r => r.output 0 1 0))
      = some (((0 : ℕ) : ℚ))
    ∧ ((0 : ℕ) : ℚ) + ((0 : ℕ) : ℚ) = ((0 : ℕ) : ℚ) := by
  with_unfolding_all decide

/-- Witness for C8 at a concrete decoder and batch, with beam size 7. -/
theorem C8_witness :
    ({ cdec with beam_size := 7 } : GruDecoder 5 1 1 1).beam_size = 7
    ∧ ({ cdec with beam_size := 7 } : GruDecoder 5 1 1 1).step 0 (fun _ => csos) cehid
      = cdec.step 0 (fun _ => csos) cehid
    ∧ ({ cdec with beam_size := 7 } : GruDecoder 5 1 1 1).forward false csos ceo
        cehid 2 ctgt clens
      = cdec.forward false csos ceo cehid 2 ctgt clens :=
  C8_beam_size_noninterference cdec 7 false csos ceo cehid 2 ctgt clens 0
    (fun _ => csos) cehid

/-- Witness for C6 at a concrete constructed decoder. -/
theorem C6_witness :
    (GruDecoder.make 2 1 0 cemb.weight cRnnDec cdec.linear_transform
        (fun v => v)).forward false csos ceo cehid 2 ctgt clens
      = Option.map
          (fun r => (fun b => r.1.map (fun step_logits => step_logits b), r.2))
          ((GruDecoder.make 2 1 0 cemb.weight cRnnDec cdec.linear_transform
              (fun v => v)).loop false 2 ctgt
            (GruDecoder.make 2 1 0 cemb.weight cRnnDec cdec.linear_transform
              (fun v => v)).max_seq_len 0 (fun _ => csos) cehid)
    ∧ GruDecoder.tfInput csos ctgt 0 = (fun _ => csos)
    ∧ (GruDecoder.make 2 1 0 cemb.weight cRnnDec cdec.linear_transform
        (fun v => v)).greedy csos cehid 0 = (fun _ => csos, cehid)
    ∧ (GruDecoder.make 2 1 0 cemb.weight cRnnDec cdec.linear_transform
        (fun v => v)).step 0 (fun _ => csos) cehid
      = (fun b => cdec.linear_transform.apply
            ((cRnnDec (cehid b)
              ((EmbeddingTable.freshEmbedding cemb.weight 0).lookup csos))).1,
         fun b => (cRnnDec (cehid b)
            ((EmbeddingTable.freshEmbedding cemb.weight 0).lookup csos)).2) :=
  C6_decoder_recurrence_structure 2 1 0 cemb.weight cRnnDec cdec.linear_transform
    (fun v => v) false csos ceo cehid 2 ctgt clens 0 (fun _ => csos) cehid
